import Mathlib

/-!
Shallow embedding of the Emot conversational backend, covering the
session/persistence subsystem (`backend/session_manager.py`) and the
prompt-windowing / fallback logic of the LLM handler
(`backend/llm_handler.py`).

Modelling conventions:
* Timestamps are natural numbers (seconds); `datetime.utcnow()` becomes an
  explicit `now : Nat` argument threaded by the caller.
* The SQLite `messages` table is a list of rows in insertion order; the
  `ORDER BY timestamp` query is a stable sort by timestamp (SQLite returns
  rows with equal keys in rowid, i.e. insertion, order).
* The session directory is a pair of association lists: one for the
  per-session `*_messages.json` files, one for `*_metadata.json` files.
  File writes in the pure model always succeed except where an operation
  takes an explicit success flag mirroring a `try/except` in the source
  (`create_session`, and the database branch of `save_message`).
-/

/-- Configuration constant `self.max_history = 50` from `SessionManager.__init__`. -/
def max_history : Nat := 50

/-- Configuration constant `self.session_timeout = 3600` from `SessionManager.__init__`. -/
def session_timeout : Nat := 3600

/-- A chat message as stored in a `{session_id}_messages.json` file and as
returned by `get_conversation_history` (role, content, optional emotion,
timestamp). -/
structure Message where
  role : String
  content : String
  emotion : Option String
  timestamp : Nat
deriving DecidableEq

/-- A row of the SQLite `messages` table (model `ConversationMessage`). -/
structure DBRow where
  session_id : String
  role : String
  content : String
  emotion : Option String
  timestamp : Nat
deriving DecidableEq

/-- Contents of a `{session_id}_metadata.json` file. -/
structure SessionMetadata where
  session_id : String
  created_at : Nat
  last_activity : Nat
  message_count : Nat
deriving DecidableEq

/-- The whole persistent state of the session manager: the database table
plus the session directory (message files and metadata files, keyed by the
file name's session id). -/
structure SMState where
  db : List DBRow
  files : List (String × List Message)
  meta : List (String × SessionMetadata)
deriving DecidableEq

/-- Empty initial state: empty database, empty session directory. -/
def initState : SMState := ⟨[], [], []⟩

/-- Write (create or overwrite) the file keyed `k` in an association-list
directory. -/
def alUpdate (k : String) (v : α) : List (String × α) → List (String × α)
  | [] => [(k, v)]
  | (k₁, v₁) :: rest => if k = k₁ then (k, v) :: rest else (k₁, v₁) :: alUpdate k v rest

/-- Stable insertion of a row into a timestamp-sorted list (rows with equal
timestamps keep their relative order). -/
def insertByTS (m : DBRow) : List DBRow → List DBRow
  | [] => [m]
  | x :: xs => if m.timestamp ≤ x.timestamp then m :: x :: xs else x :: insertByTS m xs

/-- Stable sort by timestamp, modelling the SQL `ORDER BY timestamp` on an
insertion-ordered table. -/
def sortByTS : List DBRow → List DBRow
  | [] => []
  | x :: xs => insertByTS x (sortByTS xs)

/-- Embeds `SessionManager.create_session`: generate a fresh id (passed in,
since `uuid.uuid4()` is external randomness), try to write the initial
metadata file (`writeOk` models the `try/except` around the file write), and
return the id in every case (line 110: `return session_id  # Return ID even
if metadata save fails`). -/
def create_session (st : SMState) (session_id : String) (now : Nat) (writeOk : Bool) :
    String × SMState :=
  let session_metadata : SessionMetadata :=
    { session_id := session_id, created_at := now, last_activity := now, message_count := 0 }
  if writeOk then
    (session_id, { st with meta := alUpdate session_id session_metadata st.meta })
  else
    (session_id, st)

/-- Embeds `SessionManager._update_session_metadata`: if the metadata file
exists, bump `last_activity` and increment `message_count`; if it does not
exist, do nothing (the `if metadata_file.exists()` guard has no else branch). -/
def update_session_metadata (meta : List (String × SessionMetadata)) (session_id : String)
    (now : Nat) : List (String × SessionMetadata) :=
  match meta.lookup session_id with
  | none => meta
  | some m =>
    alUpdate session_id
      { m with last_activity := now, message_count := m.message_count + 1 } meta

/-- Embeds `SessionManager._save_message_to_file`: append the message to the
per-session JSON file, then keep only the trailing `max_history` entries
(`messages = messages[-self.max_history:]` when the length exceeds the cap). -/
def save_message_to_file (files : List (String × List Message)) (session_id role content : String)
    (emotion : Option String) (now : Nat) : List (String × List Message) :=
  let messages := (files.lookup session_id).getD []
  let messages := messages ++ [⟨role, content, emotion, now⟩]
  let messages :=
    if max_history < messages.length then messages.drop (messages.length - max_history)
    else messages
  alUpdate session_id messages files

/-- Embeds `SessionManager.save_message`: try the database insert first
(`dbOk` models the `try/except`); on success also run the best-effort
metadata update; on database failure fall back to the file store, which in
the pure model always succeeds. Returns the success flag and the new state. -/
def save_message (st : SMState) (session_id role content : String) (emotion : Option String)
    (now : Nat) (dbOk : Bool) : Bool × SMState :=
  if dbOk then
    let db := st.db ++ [⟨session_id, role, content, emotion, now⟩]
    let meta := update_session_metadata st.meta session_id now
    (true, { st with db := db, meta := meta })
  else
    (true, { st with files := save_message_to_file st.files session_id role content emotion now })

/-- The database query of `get_conversation_history`:
`query(...).filter(session_id == sid).order_by(timestamp).limit(max_history)`. -/
def db_rows (db : List DBRow) (session_id : String) : List DBRow :=
  (sortByTS (db.filter (fun r => r.session_id == session_id))).take max_history

/-- Convert a database row to the history dictionary built in the loop of
`get_conversation_history` (role, content, emotion, timestamp). -/
def rowToMessage (r : DBRow) : Message := ⟨r.role, r.content, r.emotion, r.timestamp⟩

/-- Embeds `SessionManager._get_history_from_file`: a missing messages file
yields the empty list (`return []`), an existing one yields its contents.
The `return None` branch of the source corresponds to an I/O or JSON error
while reading an existing file, which cannot occur in the pure file model. -/
def get_history_from_file (files : List (String × List Message)) (session_id : String) :
    Option (List Message) :=
  match files.lookup session_id with
  | none => some []
  | some messages => some messages

/-- Embeds `SessionManager.get_conversation_history`: query the database
first; if it returns rows, convert and return them; if it returns zero rows
(or raises), fall through to the file store. -/
def get_conversation_history (st : SMState) (session_id : String) : Option (List Message) :=
  match db_rows st.db session_id with
  | [] => get_history_from_file st.files session_id
  | r :: rs => some ((r :: rs).map rowToMessage)

/-- Embeds `SessionManager.cleanup_old_sessions`: delete every database row
whose timestamp is older than `now - session_timeout`; then sweep the
metadata files, deleting each metadata file whose `last_activity` is older
than the cutoff together with the messages file named by its `session_id`
field; return how many metadata files were swept. -/
def cleanup_old_sessions (st : SMState) (now : Nat) : Nat × SMState :=
  let cutoff := now - session_timeout
  let db := st.db.filter (fun r => decide (cutoff ≤ r.timestamp))
  let expiredIds :=
    (st.meta.filter (fun p => decide (p.2.last_activity < cutoff))).map
      (fun p => p.2.session_id)
  let meta := st.meta.filter (fun p => decide (cutoff ≤ p.2.last_activity))
  let files := st.files.filter (fun p => !(expiredIds.contains p.1))
  (expiredIds.length, ⟨db, files, meta⟩)

/-- The statistics record assembled by `get_session_stats` (the fields the
claims are about). -/
structure SessionStats where
  total_sessions : Nat
  active_sessions : Nat
  total_messages : Nat
deriving DecidableEq

/-- Embeds `SessionManager.get_session_stats`: count all database rows and
distinct database session ids, count metadata files whose `last_activity`
is strictly inside the timeout window as active, and report the maximum of
the two session counts. -/
def get_session_stats (st : SMState) (now : Nat) : SessionStats :=
  let total_messages := st.db.length
  let unique_sessions := ((st.db.map (fun r => r.session_id)).dedup).length
  let cutoff := now - session_timeout
  let active_count := (st.meta.filter (fun p => decide (cutoff < p.2.last_activity))).length
  { total_sessions := max unique_sessions st.meta.length,
    active_sessions := active_count,
    total_messages := total_messages }

/-- One externally triggered session-manager operation, with the
nondeterministic inputs (fresh ids, clock readings, I/O success flags) made
explicit. -/
inductive Op where
  | create (session_id : String) (now : Nat) (writeOk : Bool)
  | save (session_id role content : String) (emotion : Option String) (now : Nat) (dbOk : Bool)
  | cleanup (now : Nat)

/-- Apply one operation to the state. -/
def applyOp (st : SMState) : Op → SMState
  | Op.create session_id now writeOk => (create_session st session_id now writeOk).2
  | Op.save session_id role content emotion now dbOk =>
      (save_message st session_id role content emotion now dbOk).2
  | Op.cleanup now => (cleanup_old_sessions st now).2

/-- Run a sequence of operations from the empty initial state. -/
def runOps (ops : List Op) : SMState := ops.foldl applyOp initState

/-- The default system prompt returned by `LLMHandler._get_default_system_prompt`. -/
def system_prompt : String :=
  "You are an emotionally intelligent AI companion named Emot. You respond with empathy, understanding, and emotional awareness. \n\nKey traits:\n- You are compassionate, supportive, and genuinely caring\n- You adapt your tone and language based on the user\x27s emotional state\n- You provide comfort during difficult times and celebrate during happy moments\n- You ask thoughtful follow-up questions to show genuine interest\n- You remember emotional context from the conversation\n- You offer practical support and encouragement when appropriate\n\nGuidelines:\n- Keep responses concise but meaningful (1-3 sentences typically)\n- Use warm, conversational language\n- Acknowledge the user\x27s emotions explicitly\n- Avoid being overly clinical or robotic\n- Show personality while remaining supportive\n\nRemember: Your goal is to make the user feel heard, understood, and emotionally supported."

/-- Characterwise lowercase mapping, modelling Python\x27s `str.lower()` on the
ASCII emotion tags this code compares (extensionally `String.toLower`, stated
on the character list so that the kernel can evaluate it). -/
def str_lower (s : String) : String := String.mk (s.data.map Char.toLower)

/-- The `emotion_contexts` dictionary of `LLMHandler._build_emotion_context`. -/
def emotion_contexts : List (String × String) :=
  [("happy", "The user seems happy and upbeat. Match their positive energy while being genuinely enthusiastic."),
   ("sad", "The user appears sad or down. Be extra compassionate, gentle, and supportive. Offer comfort and understanding."),
   ("angry", "The user seems frustrated or angry. Be calm, understanding, and help them process their feelings without judgment."),
   ("surprised", "The user appears surprised. Be curious and engaged, helping them process whatever has caught them off guard."),
   ("fearful", "The user seems anxious or fearful. Be reassuring, calm, and supportive. Help them feel safe and understood."),
   ("disgusted", "The user appears disgusted or upset about something. Be understanding and help them work through their feelings."),
   ("neutral", "The user seems calm and neutral. Be warm and engaging while matching their balanced emotional state.")]

/-- Embeds `LLMHandler._build_emotion_context`:
`emotion_contexts.get(user_emotion.lower(), emotion_contexts["neutral"])`. -/
def build_emotion_context (user_emotion : String) : String :=
  (emotion_contexts.lookup (str_lower user_emotion)).getD
    ((emotion_contexts.lookup "neutral").getD "")

/-- The `fallback_responses` dictionary of `LLMHandler._get_fallback_response`. -/
def fallback_responses : List (String × String) :=
  [("sad", "I\x27m here for you. Sometimes it helps just to know someone is listening."),
   ("angry", "I can sense you\x27re frustrated. Take a deep breath - I\x27m here to help."),
   ("happy", "I love seeing your positive energy! Tell me more about what\x27s making you happy."),
   ("fearful", "It\x27s okay to feel anxious. You\x27re safe here, and we can work through this together."),
   ("surprised", "That sounds unexpected! I\x27d love to hear more about what happened."),
   ("disgusted", "I can tell something is bothering you. Want to talk about it?"),
   ("neutral", "I\x27m here and ready to listen. What\x27s on your mind?")]

/-- Embeds `LLMHandler._get_fallback_response`:
`fallback_responses.get(user_emotion.lower(), fallback_responses["neutral"])`. -/
def get_fallback_response (user_emotion : String) : String :=
  (fallback_responses.lookup (str_lower user_emotion)).getD
    ((fallback_responses.lookup "neutral").getD "")

/-- A role/content pair as sent to the OpenAI chat API. -/
structure ApiMessage where
  role : String
  content : String
deriving DecidableEq

/-- The per-message conversion in the loop of `_format_conversation_history`:
`role = "user" if msg["role"] == "user" else "assistant"`, content copied. -/
def apiOf (m : Message) : ApiMessage :=
  ⟨if m.role == "user" then "user" else "assistant", m.content⟩

/-- The windowing slice of `_format_conversation_history`:
`history[-20:] if len(history) > 20 else history`. -/
def recent_history (history : List Message) : List Message :=
  if 20 < history.length then history.drop (history.length - 20) else history

/-- Embeds `LLMHandler._format_conversation_history`. The messages built by
this codebase always carry an `emotion` key, so `history[-1].get("emotion",
"neutral")` returns the stored value; when that value is null the subsequent
`user_emotion.lower()` raises, modelled by `none` (callers reach this only
with a string emotion on the last entry). An empty history gets no emotion
context appended. -/
def format_conversation_history (history : List Message) : Option (List ApiMessage) :=
  match history.getLast? with
  | none => some (⟨"system", system_prompt⟩ :: (recent_history history).map apiOf)
  | some last =>
    match last.emotion with
    | none => none
    | some e =>
      let emotion_context := "\n\nCurrent emotional context: " ++ build_emotion_context e
      some (⟨"system", system_prompt ++ emotion_context⟩ ::
        (recent_history history).map apiOf)

/-- Embeds `LLMHandler.generate_response`: append the current user message
(with its emotion tag) to the history, format the prompt, and call the
provider; `apiResult` models the provider call, `none` meaning the call (or
the formatting step) raised, in which case the emotion-keyed fallback string
is returned instead of propagating the failure. -/
def generate_response (message : String) (history : List Message) (user_emotion : String)
    (apiResult : Option String) : String :=
  let current_history := history ++ [⟨"user", message, some user_emotion, 0⟩]
  match format_conversation_history current_history with
  | none => get_fallback_response user_emotion
  | some _ =>
    match apiResult with
    | none => get_fallback_response user_emotion
    | some ai_response => ai_response.trim

/-- A successful lookup returns an entry of the list. -/
theorem lookup_mem {α : Type} {l : List (String × α)} {k : String} {v : α}
    (h : l.lookup k = some v) : (k, v) ∈ l := by
  induction l with
  | nil => simp at h
  | cons p rest ih =>
    obtain ⟨k₁, v₁⟩ := p
    rw [List.lookup_cons] at h
    cases hbeq : k == k₁ with
    | true =>
      rw [hbeq] at h
      simp only [Option.some.injEq] at h
      have hk : k = k₁ := by simpa using hbeq
      subst hk
      subst h
      exact List.mem_cons_self _ _
    | false =>
      rw [hbeq] at h
      exact List.mem_cons_of_mem _ (ih h)

/-- Lookup fails exactly when no entry has the requested key. -/
theorem lookup_eq_none_iff {α : Type} {l : List (String × α)} {k : String} :
    l.lookup k = none ↔ ∀ p ∈ l, p.1 ≠ k := by
  induction l with
  | nil => simp
  | cons p rest ih =>
    obtain ⟨k₁, v₁⟩ := p
    rw [List.lookup_cons]
    cases hbeq : k == k₁ with
    | true =>
      simp only [beq_iff_eq] at hbeq
      subst hbeq
      simp
    | false =>
      have hne : k ≠ k₁ := by
        intro he
        subst he
        simp at hbeq
      simp only [List.mem_cons, ne_eq]
      constructor
      · intro h q hq
        rcases hq with hq | hq
        · subst hq
          exact fun he => hne he.symm
        · exact ih.mp h q hq
      · intro h
        exact ih.mpr (fun q hq => h q (Or.inr hq))

/-- Writing a file and then looking it up by its key returns the written
contents. -/
theorem alUpdate_lookup_self {α : Type} (k : String) (v : α) (l : List (String × α)) :
    (alUpdate k v l).lookup k = some v := by
  induction l with
  | nil => simp [alUpdate, List.lookup_cons]
  | cons p rest ih =>
    obtain ⟨k₁, v₁⟩ := p
    by_cases hk : k = k₁
    · subst hk
      simp [alUpdate, List.lookup_cons]
    · have hbeq : (k == k₁) = false := by simpa using hk
      simp only [alUpdate, if_neg hk, List.lookup_cons, hbeq]
      exact ih

/-- Every entry of an updated directory is the written entry or an old one. -/
theorem alUpdate_mem {α : Type} {k : String} {v : α} {l : List (String × α)}
    {p : String × α} (h : p ∈ alUpdate k v l) : p = (k, v) ∨ p ∈ l := by
  induction l with
  | nil => simpa [alUpdate] using h
  | cons q rest ih =>
    obtain ⟨k₁, v₁⟩ := q
    by_cases hk : k = k₁
    · subst hk
      simp only [alUpdate, if_true, eq_self_iff_true, List.mem_cons, if_pos] at h
      simp only [List.mem_cons]
      tauto
    · simp only [alUpdate, if_neg hk, List.mem_cons] at h
      simp only [List.mem_cons]
      rcases h with h₁ | h₁
      · tauto
      · rcases ih h₁ with h₂ | h₂ <;> tauto

/-- Filtering with a predicate that keeps every entry carrying key `k`
preserves the lookup of `k`. -/
theorem lookup_filter_true {α : Type} {l : List (String × α)} {q : String × α → Bool}
    {k : String} (h : ∀ p ∈ l, p.1 = k → q p = true) :
    (l.filter q).lookup k = l.lookup k := by
  induction l with
  | nil => simp
  | cons p rest ih =>
    obtain ⟨k₁, v₁⟩ := p
    by_cases hk : k₁ = k
    · have hq : q (k₁, v₁) = true := h (k₁, v₁) (List.mem_cons_self _ _) hk
      rw [List.filter_cons_of_pos hq, List.lookup_cons, List.lookup_cons]
      cases hbeq : k == k₁ with
      | true => rfl
      | false => exact ih (fun p hp hpk => h p (List.mem_cons_of_mem _ hp) hpk)
    · have hbeq : (k == k₁) = false := by
        simp only [beq_eq_false_iff_ne, ne_eq]
        exact fun he => hk he.symm
      cases hq : q (k₁, v₁) with
      | true =>
        rw [List.filter_cons_of_pos hq, List.lookup_cons, List.lookup_cons, hbeq]
        exact ih (fun p hp hpk => h p (List.mem_cons_of_mem _ hp) hpk)
      | false =>
        rw [List.filter_cons_of_neg (by simp [hq]), List.lookup_cons, hbeq]
        exact ih (fun p hp hpk => h p (List.mem_cons_of_mem _ hp) hpk)

/-- Filtering with a predicate that drops every entry carrying key `k` makes
the lookup of `k` fail. -/
theorem lookup_filter_false {α : Type} {l : List (String × α)} {q : String × α → Bool}
    {k : String} (h : ∀ p ∈ l, p.1 = k → q p = false) :
    (l.filter q).lookup k = none := by
  rw [lookup_eq_none_iff]
  intro p hp hpk
  have hmem := (List.mem_filter.mp hp).1
  have hq := (List.mem_filter.mp hp).2
  rw [h p hmem hpk] at hq
  exact Bool.false_ne_true hq

/-- In a directory with no duplicate keys, a successful lookup pins down the
unique entry carrying that key. -/
theorem key_unique_of_nodup {α : Type} {l : List (String × α)} {k : String} {v : α}
    (hnd : (l.map Prod.fst).Nodup) (hl : l.lookup k = some v) :
    ∀ p ∈ l, p.1 = k → p = (k, v) := by
  induction l with
  | nil => intro p hp; simp at hp
  | cons q rest ih =>
    obtain ⟨k₁, v₁⟩ := q
    simp only [List.map_cons, List.nodup_cons] at hnd
    rw [List.lookup_cons] at hl
    intro p hp hpk
    rcases List.mem_cons.mp hp with hq | hq
    · subst hq
      simp only at hpk
      subst hpk
      simp only [BEq.refl] at hl
      simp only [Option.some.injEq] at hl
      rw [hl]
    · cases hbeq : k == k₁ with
      | true =>
        have hk : k = k₁ := by simpa using hbeq
        exfalso
        apply hnd.1
        rw [← hk, ← hpk]
        exact List.mem_map_of_mem Prod.fst hq
      | false =>
        rw [hbeq] at hl
        exact ih hnd.2 hl p hq hpk

/-- Claim C7: `create_session` never fails the caller-visible contract: it
returns the freshly generated session identifier on every execution, also
when the metadata write fails, and when the write succeeds the stored
metadata record has `message_count = 0`. -/
theorem C7_create_session_contract :
    ∀ (st : SMState) (sid : String) (now : Nat) (writeOk : Bool),
      (create_session st sid now writeOk).1 = sid ∧
      (writeOk = true →
        ((create_session st sid now writeOk).2.meta).lookup sid =
          some { session_id := sid, created_at := now, last_activity := now,
                 message_count := 0 }) := by
  intro st sid now writeOk
  constructor
  · cases writeOk <;> simp [create_session]
  · intro hw
    subst hw
    simp only [create_session, if_true]
    exact alUpdate_lookup_self _ _ _

/-- Witness for C7 at a concrete state, fresh id and clock. -/
theorem C7_create_session_contract_witness :
    (create_session initState "id-1" 7 true).1 = "id-1" ∧
    ((create_session initState "id-1" 7 true).2.meta).lookup "id-1" =
      some { session_id := "id-1", created_at := 7, last_activity := 7,
             message_count := 0 } :=
  ⟨(C7_create_session_contract initState "id-1" 7 true).1,
   (C7_create_session_contract initState "id-1" 7 true).2 rfl⟩


/-- Mapping `apiOf` over the window commutes with the windowing slice, so two
histories with the same projected role/content pairs produce the same
windowed output. -/
theorem recent_map_apiOf_congr {l₁ l₂ : List Message}
    (hmap : l₁.map apiOf = l₂.map apiOf) :
    (recent_history l₁).map apiOf = (recent_history l₂).map apiOf := by
  have hlen : l₁.length = l₂.length := by
    have h := congrArg List.length hmap
    simpa using h
  simp only [recent_history, hlen]
  by_cases hc : 20 < l₂.length
  · rw [if_pos hc, if_pos hc, List.map_drop, List.map_drop, hmap]
  · rw [if_neg hc, if_neg hc, hmap]

/-- Claim C9: an emotion tag that is not among the seven recognized keys
(for example `"confused"`), or whose lowercase normalization misses the
table, resolves to exactly the same system-prompt annotation as `"neutral"`;
consequently the whole formatted prompt is the same under either tag. -/
theorem C9_unrecognized_emotion_neutral :
    build_emotion_context "confused" = build_emotion_context "neutral" ∧
    (∀ e : String, emotion_contexts.lookup (str_lower e) = none →
      build_emotion_context e = build_emotion_context "neutral") ∧
    (∀ (h : List Message) (m : String),
      format_conversation_history (h ++ [⟨"user", m, some "confused", 0⟩]) =
        format_conversation_history (h ++ [⟨"user", m, some "neutral", 0⟩])) := by
  refine ⟨by decide, ?_, ?_⟩
  · intro e he
    simp only [build_emotion_context, he, Option.getD_none]
    decide
  · intro h m
    simp only [format_conversation_history, List.getLast?_concat]
    have hctx : build_emotion_context "confused" = build_emotion_context "neutral" := by
      decide
    rw [hctx]
    have hmap : (h ++ [(⟨"user", m, some "confused", 0⟩ : Message)]).map apiOf =
        (h ++ [(⟨"user", m, some "neutral", 0⟩ : Message)]).map apiOf := by
      simp [apiOf]
    rw [recent_map_apiOf_congr hmap]

/-- Witness for C9 at concrete unrecognized tags and a concrete history. -/
theorem C9_unrecognized_emotion_neutral_witness :
    build_emotion_context "Baffled" = build_emotion_context "neutral" ∧
    format_conversation_history [⟨"user", "hi", some "confused", 0⟩] =
      format_conversation_history [⟨"user", "hi", some "neutral", 0⟩] :=
  ⟨C9_unrecognized_emotion_neutral.2.1 "Baffled" (by decide),
   C9_unrecognized_emotion_neutral.2.2 [] "hi"⟩

/-- Claim C8: when the LLM provider call fails, `generate_response` does not
propagate the failure: it returns the static fallback string selected from
the seven-key emotion table by the user\x27s emotion, and an emotion whose
lowercase form misses the table gets the neutral entry. -/
theorem C8_fallback_on_provider_failure :
    (∀ (message : String) (history : List Message) (e : String),
      generate_response message history e none = get_fallback_response e) ∧
    fallback_responses.map Prod.fst =
      ["sad", "angry", "happy", "fearful", "surprised", "disgusted", "neutral"] ∧
    (∀ e : String, fallback_responses.lookup (str_lower e) = none →
      get_fallback_response e = get_fallback_response "neutral") := by
  refine ⟨?_, by decide, ?_⟩
  · intro message history e
    simp [generate_response, format_conversation_history, List.getLast?_concat]
  · intro e he
    simp only [get_fallback_response, he, Option.getD_none]
    decide

/-- Witness for C8 at a concrete message and unrecognized emotion. -/
theorem C8_fallback_on_provider_failure_witness :
    generate_response "hello" [] "confused" none = get_fallback_response "confused" ∧
    get_fallback_response "confused" = get_fallback_response "neutral" :=
  ⟨C8_fallback_on_provider_failure.1 "hello" [] "confused",
   C8_fallback_on_provider_failure.2.2 "confused" (by decide)⟩

/-- Claim C3 counterexample: for a session id never written to either store,
`get_conversation_history` returns the empty list, not the `None` not-found
signal the claim requires, so an empty conversation and a nonexistent
session are not distinguishable. -/
theorem C3_counterexample_missing_session_empty_list :
    get_conversation_history initState "no-such-session" = some [] ∧
    get_conversation_history initState "no-such-session" ≠ none := by
  exact ⟨rfl, by decide⟩

/-- Claim C3 amended: in the pure store model `get_conversation_history`
never returns the not-found signal: every call returns `some` history, and
for a session with no rows in the durable store and no messages file it
returns `some []` (the `None` branch of the source fires only on an I/O or
JSON error while reading an existing file). -/
theorem C3_amended_no_notfound_signal :
    (∀ (st : SMState) (sid : String), ∃ h, get_conversation_history st sid = some h) ∧
    (∀ (st : SMState) (sid : String),
      st.db.filter (fun r => r.session_id == sid) = [] →
      st.files.lookup sid = none →
      get_conversation_history st sid = some []) := by
  constructor
  · intro st sid
    unfold get_conversation_history
    cases hdb : db_rows st.db sid with
    | nil =>
      unfold get_history_from_file
      cases st.files.lookup sid <;> simp
    | cons r rs => simp
  · intro st sid hdb hfile
    unfold get_conversation_history db_rows
    rw [hdb]
    simp only [sortByTS, List.take_nil]
    unfold get_history_from_file
    rw [hfile]

/-- Witness for the amended C3 at a concrete never-written session id. -/
theorem C3_amended_no_notfound_signal_witness :
    get_conversation_history initState "fresh-id" = some [] :=
  C3_amended_no_notfound_signal.2 initState "fresh-id" rfl rfl

/-- Operation sequence overflowing one session: 51 successful database
appends to session `"s"` at strictly increasing timestamps 0..50. -/
def overflowOps : List Op := (List.range 51).map (fun i => Op.save "s" "user" "m" none i true)

/-- The 50 oldest messages of the overflown session (timestamps 0..49). -/
def oldest50 : List Message := (List.range 50).map (fun i => ⟨"user", "m", none, i⟩)

/-- The 50 most recent messages of the overflown session (timestamps 1..50). -/
def recent50 : List Message := (List.range 50).map (fun i => ⟨"user", "m", none, i + 1⟩)

/-- Claim C1 evaluated at the failing input: after 50 prior appends, one more
`save_message` followed by `get_conversation_history` does NOT return the
new message as the last entry: the ascending-order query with `limit 50`
keeps the 50 oldest rows, the returned history ends at timestamp 49 and the
message just appended (timestamp 50) is absent. -/
theorem C1_append_then_get_drops_new_message :
    get_conversation_history (runOps overflowOps) "s" = some oldest50 ∧
    ((get_conversation_history (runOps overflowOps) "s").getD []).getLast? =
      some ⟨"user", "m", none, 49⟩ ∧
    (⟨"user", "m", none, 50⟩ : Message) ∉ oldest50 := by
  exact ⟨by decide, by decide, by decide⟩

/-- Claim C2 evaluated at the failing input: with 51 messages stored, the
database path returns the 50 oldest messages, which differ from the 50 most
recent ones the claim requires. -/
theorem C2_db_path_returns_oldest_not_recent :
    get_conversation_history (runOps overflowOps) "s" = some oldest50 ∧
    oldest50 ≠ recent50 := by
  exact ⟨by decide, by decide⟩

/-- Appending one element after a cons-and-append prefix makes it the last
entry of the produced list. -/
theorem getLast_cons_append_singleton (a : ApiMessage) (A : List ApiMessage) (x : ApiMessage) :
    (a :: (A ++ [x])).getLast? = some x := by
  rw [show a :: (A ++ [x]) = (a :: A) ++ [x] from by simp, List.getLast?_concat]

/-- Claim C6: for 25 prior turns plus one newly submitted user message, the
windowing step produces, besides the synthesized system entry, exactly the
last 20 turns oldest-first, with the new user message as the last entry. -/
theorem C6_windowing_25_plus_1 :
    ∀ (prior : List Message) (message emo : String), prior.length = 25 →
      ∃ out,
        format_conversation_history (prior ++ [⟨"user", message, some emo, 0⟩]) = some out ∧
        out.drop 1 = (prior.drop 6 ++ [(⟨"user", message, some emo, 0⟩ : Message)]).map apiOf ∧
        (out.drop 1).length = 20 ∧
        out.getLast? = some ⟨"user", message⟩ := by
  intro prior message emo h25
  have hlen : (prior ++ [(⟨"user", message, some emo, 0⟩ : Message)]).length = 26 := by
    simp [h25]
  have hrec : recent_history (prior ++ [(⟨"user", message, some emo, 0⟩ : Message)]) =
      prior.drop 6 ++ [⟨"user", message, some emo, 0⟩] := by
    unfold recent_history
    rw [hlen, if_pos (by omega)]
    have h6 : (26 : Nat) - 20 = 6 := by norm_num
    rw [h6]
    exact List.drop_append_of_le_length (by omega)
  refine ⟨(⟨"system",
      system_prompt ++ ("\n\nCurrent emotional context: " ++ build_emotion_context emo)⟩ :
      ApiMessage) ::
      (prior.drop 6 ++ [(⟨"user", message, some emo, 0⟩ : Message)]).map apiOf,
      ?_, by simp, ?_, ?_⟩
  · simp only [format_conversation_history, List.getLast?_concat, hrec]
  · rw [List.drop_one, List.tail_cons, List.length_map, List.length_append, List.length_drop,
      h25]
    norm_num
  · simp only [List.map_append, List.map_cons, List.map_nil]
    rw [getLast_cons_append_singleton]
    rfl

/-- Twenty-five prior turns for the C6 witness. -/
def prior25 : List Message := (List.range 25).map (fun i => ⟨"user", "m", some "neutral", i⟩)

/-- Witness for C6 at a concrete 25-turn history and new message. -/
theorem C6_windowing_25_plus_1_witness :
    ∃ out,
      format_conversation_history (prior25 ++ [⟨"user", "hello", some "sad", 0⟩]) = some out ∧
      out.drop 1 = (prior25.drop 6 ++ [(⟨"user", "hello", some "sad", 0⟩ : Message)]).map apiOf ∧
      (out.drop 1).length = 20 ∧
      out.getLast? = some ⟨"user", "hello"⟩ :=
  C6_windowing_25_plus_1 prior25 "hello" "sad" (by decide)

/-- Invariant: every per-session messages file holds at most `max_history`
entries. -/
def FilesBounded (files : List (String × List Message)) : Prop :=
  ∀ p ∈ files, p.2.length ≤ max_history

/-- The file-store append re-applies the cap, so it preserves the bound. -/
theorem save_message_to_file_bounded {files : List (String × List Message)}
    (hf : FilesBounded files) (session_id role content : String) (emotion : Option String)
    (now : Nat) :
    FilesBounded (save_message_to_file files session_id role content emotion now) := by
  intro p hp
  unfold save_message_to_file at hp
  rcases alUpdate_mem hp with h | h
  · subst h
    simp only
    by_cases hc :
        max_history <
          ((files.lookup session_id).getD [] ++ [(⟨role, content, emotion, now⟩ : Message)]).length
    · rw [if_pos hc, List.length_drop]
      omega
    · rw [if_neg hc]
      omega
  · exact hf p h

/-- Every operation preserves the messages-file bound. -/
theorem applyOp_bounded {st : SMState} (hf : FilesBounded st.files) (op : Op) :
    FilesBounded (applyOp st op).files := by
  cases op with
  | create session_id now writeOk =>
    cases writeOk <;> simpa [applyOp, create_session] using hf
  | save session_id role content emotion now dbOk =>
    cases dbOk with
    | true => simpa [applyOp, save_message] using hf
    | false =>
      simp only [applyOp, save_message, if_neg]
      exact save_message_to_file_bounded hf session_id role content emotion now
  | cleanup now =>
    intro p hp
    simp only [applyOp, cleanup_old_sessions] at hp
    exact hf p (List.mem_filter.mp hp).1

/-- Every state reachable from the empty initial state satisfies the bound. -/
theorem runOps_bounded (ops : List Op) : FilesBounded (runOps ops).files := by
  suffices h : ∀ (l : List Op) (st : SMState),
      FilesBounded st.files → FilesBounded (l.foldl applyOp st).files by
    refine h ops initState ?_
    intro p hp
    simp [initState] at hp
  intro l
  induction l with
  | nil => intro st h; simpa using h
  | cons op rest ih =>
    intro st h
    exact ih _ (applyOp_bounded h op)

/-- Claim C5: after any sequence of operations (database appends, file-store
fallback appends, session creations, cleanups), `get_conversation_history`
returns at most `max_history` (50) entries, on the database path and on the
file-store fallback path alike. -/
theorem C5_history_bounded :
    ∀ (ops : List Op) (sid : String) (h : List Message),
      get_conversation_history (runOps ops) sid = some h → h.length ≤ max_history := by
  intro ops sid h hget
  unfold get_conversation_history at hget
  cases hdb : db_rows (runOps ops).db sid with
  | nil =>
    rw [hdb] at hget
    unfold get_history_from_file at hget
    cases hl : (runOps ops).files.lookup sid with
    | none =>
      rw [hl] at hget
      simp only [Option.some.injEq] at hget
      subst hget
      simp
    | some v =>
      rw [hl] at hget
      simp only [Option.some.injEq] at hget
      subst hget
      exact runOps_bounded ops (sid, v) (lookup_mem hl)
  | cons r rs =>
    rw [hdb] at hget
    simp only [Option.some.injEq] at hget
    subst hget
    rw [List.length_map]
    have hle : (r :: rs).length ≤ max_history := by
      rw [← hdb]
      unfold db_rows
      exact List.length_take_le _ _
    exact hle

/-- Witness for C5 on the empty operation sequence. -/
theorem C5_history_bounded_witness :
    get_conversation_history (runOps []) "s" = some [] ∧
    ([] : List Message).length ≤ max_history :=
  ⟨rfl, C5_history_bounded [] "s" [] rfl⟩

/-- State with one session `"a"` whose only stored message is old
(timestamp 0) while its `last_activity` (5000) is inside the timeout window
at `now = 5000` (cutoff 1400). -/
def c4State : SMState :=
  { db := [⟨"a", "user", "old", none, 0⟩],
    files := [("a", [⟨"user", "old", none, 0⟩])],
    meta := [("a", ⟨"a", 0, 5000, 1⟩)] }

/-- Claim C4 counterexample: session `"a"` is inside the timeout window
(its `last_activity` is not older than the cutoff), yet `cleanup_old_sessions`
deletes its only durable-store message, because the database sweep filters
on per-message timestamps rather than on the session\x27s `last_activity`.
The session is therefore not untouched as the claim requires. -/
theorem C4_counterexample_active_session_loses_messages :
    (c4State.meta.lookup "a").map (fun m => m.last_activity) = some 5000 ∧
    ¬ (5000 < 5000 - session_timeout) ∧
    c4State.db ≠ [] ∧
    (cleanup_old_sessions c4State 5000).2.db = [] ∧
    (cleanup_old_sessions c4State 5000).2.meta.lookup "a" = some ⟨"a", 0, 5000, 1⟩ := by
  exact ⟨by decide, by decide, by decide, by decide, by decide⟩

/-- Well-formedness of the metadata directory as the code itself produces
it: each metadata file is keyed by the session id recorded inside it, and no
session id has two metadata files. -/
def MetaWF (meta : List (String × SessionMetadata)) : Prop :=
  (∀ p ∈ meta, p.1 = p.2.session_id) ∧ (meta.map Prod.fst).Nodup

/-- Boolean form of membership: a listed id is not kept by the
negated-containment sweep predicate. -/
theorem bnot_contains_eq_false {α : Type} [BEq α] [LawfulBEq α] {l : List α} {a : α}
    (h : a ∈ l) : (!(l.contains a)) = false := by
  unfold List.contains
  rw [List.elem_eq_true_of_mem h]
  rfl

/-- Boolean form of non-membership: an unlisted id is kept by the
negated-containment sweep predicate. -/
theorem bnot_contains_eq_true {α : Type} [BEq α] [LawfulBEq α] {l : List α} {a : α}
    (h : a ∉ l) : (!(l.contains a)) = true := by
  unfold List.contains
  cases hc : List.elem a l with
  | true => exact absurd (List.mem_of_elem_eq_true hc) h
  | false => rfl

/-- Claim C4 amended: after `cleanup_old_sessions now`, the durable store
keeps exactly the messages with timestamp at least `now - session_timeout`,
regardless of their session\x27s activity; a session whose `last_activity` is
older than the cutoff loses its metadata and file-store messages (and, when
all its durable messages are no newer than its `last_activity`, all its
durable rows as well); a session whose `last_activity` is inside the window
keeps its metadata and file-store messages, though not necessarily its older
durable rows. -/
theorem C4_amended_eviction :
    ∀ (st : SMState) (now : Nat) (sid : String) (m : SessionMetadata),
      MetaWF st.meta → st.meta.lookup sid = some m →
      ((cleanup_old_sessions st now).2.db =
          st.db.filter (fun r => decide (now - session_timeout ≤ r.timestamp))) ∧
      (m.last_activity < now - session_timeout →
        (cleanup_old_sessions st now).2.meta.lookup sid = none ∧
        (cleanup_old_sessions st now).2.files.lookup sid = none ∧
        ((∀ r ∈ st.db, r.session_id = sid → r.timestamp ≤ m.last_activity) →
          (cleanup_old_sessions st now).2.db.filter (fun r => r.session_id == sid) = [])) ∧
      (now - session_timeout ≤ m.last_activity →
        (cleanup_old_sessions st now).2.meta.lookup sid = some m ∧
        (cleanup_old_sessions st now).2.files.lookup sid = st.files.lookup sid) := by
  intro st now sid m hwf hlk
  have hmem : (sid, m) ∈ st.meta := lookup_mem hlk
  have hkey : ∀ p ∈ st.meta, p.1 = sid → p = (sid, m) :=
    key_unique_of_nodup hwf.2 hlk
  refine ⟨rfl, ?_, ?_⟩
  · intro hexp
    refine ⟨?_, ?_, ?_⟩
    · simp only [cleanup_old_sessions]
      refine lookup_filter_false ?_
      intro p hp hpk
      rw [hkey p hp hpk]
      simp only [decide_eq_false_iff_not]
      omega
    · simp only [cleanup_old_sessions]
      refine lookup_filter_false ?_
      intro p hp hpk
      have hsid : sid ∈
          ((st.meta.filter (fun q => decide (q.2.last_activity < now - session_timeout))).map
            (fun q => q.2.session_id)) := by
        have hfm : (sid, m) ∈
            st.meta.filter (fun q => decide (q.2.last_activity < now - session_timeout)) := by
          refine List.mem_filter.mpr ⟨hmem, ?_⟩
          simp only [decide_eq_true_eq]
          omega
        have hids : m.session_id = sid := (hwf.1 (sid, m) hmem).symm
        have := List.mem_map_of_mem (fun q => q.2.session_id) hfm
        simpa [hids] using this
      rw [hpk]
      exact bnot_contains_eq_false hsid
    · intro hts
      rw [List.filter_eq_nil_iff]
      intro r hr
      have hr₁ := List.mem_filter.mp hr
      have hcut : now - session_timeout ≤ r.timestamp := by
        have := hr₁.2
        simpa using this
      intro hbeq
      have hrs : r.session_id = sid := by simpa using hbeq
      have := hts r hr₁.1 hrs
      omega
  · intro hin
    constructor
    · simp only [cleanup_old_sessions]
      rw [lookup_filter_true ?_]
      · exact hlk
      · intro p hp hpk
        rw [hkey p hp hpk]
        simp only [decide_eq_true_eq]
        omega
    · simp only [cleanup_old_sessions]
      refine lookup_filter_true ?_
      intro p hp hpk
      have hnot : sid ∉
          ((st.meta.filter (fun q => decide (q.2.last_activity < now - session_timeout))).map
            (fun q => q.2.session_id)) := by
        intro hmemm
        rcases List.mem_map.mp hmemm with ⟨q, hq, hqid⟩
        have hq₁ := List.mem_filter.mp hq
        have hqexp : q.2.last_activity < now - session_timeout := by
          have := hq₁.2
          simpa using this
        have hqkey : q.1 = sid := (hwf.1 q hq₁.1).trans hqid
        have := hkey q hq₁.1 hqkey
        rw [this] at hqexp
        simp only at hqexp
        omega
      rw [hpk]
      exact bnot_contains_eq_true hnot

/-- State with one expired session `"b"` (last activity 100, message at
timestamp 10) for the C4 witness, evaluated at `now = 5000`. -/
def c4wState : SMState :=
  { db := [⟨"b", "user", "old", none, 10⟩],
    files := [("b", [⟨"user", "old", none, 10⟩])],
    meta := [("b", ⟨"b", 0, 100, 1⟩)] }

/-- Witness for the amended C4: the expired session `"b"` is fully absent
from both stores after the sweep. -/
theorem C4_amended_eviction_witness :
    (cleanup_old_sessions c4wState 5000).2.meta.lookup "b" = none ∧
    (cleanup_old_sessions c4wState 5000).2.files.lookup "b" = none ∧
    (cleanup_old_sessions c4wState 5000).2.db.filter (fun r => r.session_id == "b") = [] := by
  have h := C4_amended_eviction c4wState 5000 "b" ⟨"b", 0, 100, 1⟩
    ⟨by decide, by decide⟩ rfl
  have h₂ := h.2.1 (by decide)
  exact ⟨h₂.1, h₂.2.1, h₂.2.2 (by decide)⟩

/-- Claim C10: appending a message to a session id with no metadata file
succeeds but never creates metadata; the metadata directory is untouched, so
such a session contributes nothing to `active_sessions` and its messages
file survives the metadata-driven file sweep of the cleanup. -/
theorem C10_append_without_metadata :
    ∀ (st : SMState) (sid : String), st.meta.lookup sid = none →
      (∀ p ∈ st.meta, p.1 = p.2.session_id) →
      ∀ (role content : String) (emotion : Option String) (now : Nat) (dbOk : Bool),
        (save_message st sid role content emotion now dbOk).1 = true ∧
        (save_message st sid role content emotion now dbOk).2.meta = st.meta ∧
        (save_message st sid role content emotion now dbOk).2.meta.lookup sid = none ∧
        (∀ now₂ : Nat,
          (get_session_stats (save_message st sid role content emotion now dbOk).2
            now₂).active_sessions = (get_session_stats st now₂).active_sessions) ∧
        (∀ now₂ : Nat,
          (cleanup_old_sessions (save_message st sid role content emotion now dbOk).2
              now₂).2.files.lookup sid =
            (save_message st sid role content emotion now dbOk).2.files.lookup sid) := by
  intro st sid hlk hwf role content emotion now dbOk
  have hmeta : (save_message st sid role content emotion now dbOk).2.meta = st.meta := by
    cases dbOk with
    | true => simp [save_message, update_session_metadata, hlk]
    | false => simp [save_message]
  refine ⟨?_, hmeta, ?_, ?_, ?_⟩
  · cases dbOk <;> simp [save_message]
  · rw [hmeta]
    exact hlk
  · intro now₂
    simp only [get_session_stats, hmeta]
  · intro now₂
    simp only [cleanup_old_sessions, hmeta]
    refine lookup_filter_true ?_
    intro p hp hpk
    have hnot : sid ∉
        ((st.meta.filter (fun q => decide (q.2.last_activity < now₂ - session_timeout))).map
          (fun q => q.2.session_id)) := by
      intro hmem
      rcases List.mem_map.mp hmem with ⟨q, hq, hqid⟩
      have hq₁ := List.mem_filter.mp hq
      have hqkey : q.1 = sid := (hwf q hq₁.1).trans hqid
      exact (lookup_eq_none_iff.mp hlk q hq₁.1) hqkey
    rw [hpk]
    exact bnot_contains_eq_true hnot

/-- Witness for C10: appending to the unknown session id `"ghost"` in the
empty state. -/
theorem C10_append_without_metadata_witness :
    (save_message initState "ghost" "user" "hi" none 3 true).1 = true ∧
    (save_message initState "ghost" "user" "hi" none 3 true).2.meta = initState.meta ∧
    (save_message initState "ghost" "user" "hi" none 3 true).2.meta.lookup "ghost" = none ∧
    (get_session_stats (save_message initState "ghost" "user" "hi" none 3 true).2
      5000).active_sessions = (get_session_stats initState 5000).active_sessions ∧
    (cleanup_old_sessions (save_message initState "ghost" "user" "hi" none 3 true).2
        5000).2.files.lookup "ghost" =
      (save_message initState "ghost" "user" "hi" none 3 true).2.files.lookup "ghost" := by
  have h := C10_append_without_metadata initState "ghost" rfl (by decide) "user" "hi" none 3 true
  exact ⟨h.1, h.2.1, h.2.2.1, h.2.2.2.1 5000, h.2.2.2.2 5000⟩
